import Mathlib

/-!
Verification development for the SQL-dump-to-document migration tool.

The parsing core (`src/sql-dump-parser.js`) and the identifier mapper
(`src/utils/uuid-mapper.js`, the enhanced mapper bundled with the chatroom
migration) are embedded shallowly: the JavaScript string state machines become
structurally recursive functions over `List Char`, the process-wide mapping
object becomes an explicit `MapperState` value threaded through the operations,
and the file-system / JSON layer of persistence is elided (persist hands back
the structured forward table, load consumes one).

JavaScript built-ins that the source leans on (`trim`, `toUpperCase`,
`substring` with clamping, truthiness, `isNaN`-style numeral detection) are
modelled explicitly so every claim-relevant branch of the source is visible in
the embedding.
-/

namespace SqlMig

/-- The single-quote character `'` (kept as a code point so quote handling in
the embedded state machines mirrors the source's character comparisons). -/
def squote : Char := Char.ofNat 39

/-- The double-quote character `"`. -/
def dquote : Char := Char.ofNat 34

/-- The backslash escape character `\`. -/
def bslash : Char := Char.ofNat 92

/-- Whitespace as recognised by `String.prototype.trim` on the ASCII range
that SQL dump tokens use. -/
def isWs (c : Char) : Bool := c = ' ' ∨ c = Char.ofNat 9 ∨ c = Char.ofNat 10 ∨ c = Char.ofNat 13

/-- `trim` on a character list: drop whitespace from both ends (model of the
JavaScript `value.trim()` calls in the parser). -/
def jsTrimL (cs : List Char) : List Char :=
  ((cs.dropWhile isWs).reverse.dropWhile isWs).reverse

/-- `trim` lifted to strings. -/
def jsTrim (s : String) : String := ⟨jsTrimL s.data⟩

/-- Model of `value.toUpperCase()` (character-wise upper casing; dump tokens
are ASCII). -/
def jsToUpper (s : String) : String := ⟨s.data.map Char.toUpper⟩

/-- Model of JavaScript `value.substring(1, value.length - 1)`: the source
uses it to strip a leading and trailing quote.  JavaScript clamps and swaps
out-of-order indices, so a one-character string is returned unchanged. -/
def jsSub1 (cs : List Char) : List Char :=
  if cs.length ≤ 1 then cs else (cs.drop 1).take (cs.length - 2)

/-- One global-replace pass `value.replace(/\\X/g, "X")` for a two-character
escape `\X`: scan left to right, replacing each non-overlapping occurrence of
backslash-then-`p` by `r`. -/
def replaceEsc (p r : Char) : List Char → List Char
  | [] => []
  | c :: rest =>
    if c = bslash then
      match rest with
      | [] => [c]
      | c2 :: rest2 =>
        if c2 = p then r :: replaceEsc p r rest2
        else c :: replaceEsc p r (c2 :: rest2)
    else c :: replaceEsc p r rest

/-- The three sequential unescaping passes of `processValue`:
`.replace(/\\'/g, "'").replace(/\\"/g, '"').replace(/\\\\/g, "\\")`. -/
def unescapeSql (cs : List Char) : List Char :=
  replaceEsc bslash bslash (replaceEsc dquote dquote (replaceEsc squote squote cs))

/-- The quoted-string test of `processValue`:
`(value.startsWith("'") && value.endsWith("'")) || (value.startsWith('"') && value.endsWith('"'))`. -/
def isQuoted (cs : List Char) : Bool :=
  (cs.head? = some squote ∧ cs.getLast? = some squote) ∨
  (cs.head? = some dquote ∧ cs.getLast? = some dquote)

/-- Digits-to-number accumulator shared by the numeral models. -/
def digitsToNat (cs : List Char) : Nat :=
  cs.foldl (fun a c => a * 10 + (c.toNat - 48)) 0

/-- Strip one leading sign character, remembering whether it was a minus. -/
def dropSign (cs : List Char) : Bool × List Char :=
  match cs with
  | c :: rest => if c = '-' then (true, rest) else if c = '+' then (false, rest) else (false, cs)
  | [] => (false, [])

/-- Exponent suffix check for the decimal-literal grammar (`e`/`E`, optional
sign, at least one digit). -/
def expOk : List Char → Bool
  | [] => true
  | c :: rest =>
    if c = 'e' ∨ c = 'E' then
      let (_, ds) := dropSign rest
      ¬ ds.isEmpty ∧ ds.all Char.isDigit
    else false

/-- Mantissa-plus-exponent check for an (already sign-stripped) decimal
literal: digits, optionally a dot and further digits, at least one digit in
total, then an optional exponent. -/
def numBody (cs : List Char) : Bool :=
  let i := cs.takeWhile Char.isDigit
  let r1 := cs.dropWhile Char.isDigit
  match r1 with
  | c :: rest =>
    if c = '.' then
      let f := rest.takeWhile Char.isDigit
      let r2 := rest.dropWhile Char.isDigit
      ((¬ i.isEmpty) ∨ (¬ f.isEmpty)) ∧ expOk r2
    else (¬ i.isEmpty) ∧ expOk r1
  | [] => ¬ i.isEmpty

/-- Model of the JavaScript `!isNaN(value)` numeral test as `processValue`
uses it, restricted to the (trimmed) decimal literals a MySQL dump emits:
the empty string coerces to `0` (hence "numeric"), otherwise an optional sign
followed by a decimal mantissa and optional exponent is required. -/
def jsIsNumeric (cs : List Char) : Bool :=
  cs.isEmpty ∨ numBody (dropSign cs).2

/-- Model of `parseInt(value, 10)` on the tokens the numeric branch feeds it:
optional sign, then the longest leading digit run. -/
def parseIntJs (cs : List Char) : Int :=
  let (neg, rest) := dropSign cs
  let n : Int := Int.ofNat (digitsToNat (rest.takeWhile Char.isDigit))
  if neg then -n else n

/-- Model of `parseFloat(value)` on plain decimal literals: integer part plus
fractional part as an exact rational. -/
def parseFloatJs (cs : List Char) : ℚ :=
  let (neg, rest) := dropSign cs
  let ip := rest.takeWhile Char.isDigit
  let r1 := rest.dropWhile Char.isDigit
  let frac :=
    match r1 with
    | c :: fs => if c = '.' then fs.takeWhile Char.isDigit else []
    | [] => []
  let q : ℚ := (digitsToNat ip : ℚ) + (digitsToNat frac : ℚ) / ((10 : ℚ) ^ frac.length)
  if neg then -q else q

/-- The typed scalar a lexed SQL token becomes: `null`, integer, float or
string (the `Row` value type of the data model). -/
inductive ScalarValue where
  | null : ScalarValue
  | int : Int → ScalarValue
  | float : ℚ → ScalarValue
  | str : String → ScalarValue
deriving DecidableEq, Repr

/-- Embedding of `processValue` (src/sql-dump-parser.js, lines 396-423), the
value lexer: `NULL` (case-insensitive) becomes null; a token bounded by
matching quotes is unquoted and unescaped to a string; a numeral becomes an
integer or float depending on a decimal point; anything else falls back to the
raw string. -/
def processValue (value : String) : ScalarValue :=
  if jsToUpper value = "NULL" then .null
  else if isQuoted value.data then .str ⟨unescapeSql (jsSub1 value.data)⟩
  else if jsIsNumeric value.data ∧ value ≠ "" then
    if value.data.any (· = '.') then .float (parseFloatJs value.data)
    else .int (parseIntJs value.data)
  else .str value

/-- Embedding of the character loop of `parseValuesComplex`
(src/sql-dump-parser.js, lines 339-393): split a row text into field tokens on
top-level commas, tracking string state, the quote delimiter and a one-shot
escape flag; quote delimiters are consumed, escaped characters are appended
verbatim, and each completed token is trimmed and handed to `processValue`.
The final pending token is appended only when its trim is non-empty. -/
def pvcCore : List Char → Bool → Option Char → Bool → List Char → List ScalarValue →
    List ScalarValue
  | [], _, _, _, cur, vals =>
    if (⟨jsTrimL cur⟩ : String) ≠ "" then vals ++ [processValue ⟨jsTrimL cur⟩] else vals
  | c :: rest, inString, sc, escaped, cur, vals =>
    if escaped then pvcCore rest inString sc false (cur ++ [c]) vals
    else if c = bslash then pvcCore rest inString sc true cur vals
    else if c = squote ∨ c = dquote then
      if inString = false then pvcCore rest true (some c) false cur vals
      else if some c = sc then pvcCore rest false none false cur vals
      else pvcCore rest inString sc false (cur ++ [c]) vals
    else if c = ',' ∧ inString = false then
      pvcCore rest inString sc false [] (vals ++ [processValue ⟨jsTrimL cur⟩])
    else pvcCore rest inString sc false (cur ++ [c]) vals

/-- `parseValuesComplex(rowText)`: run the field state machine from the idle
start state. -/
def parseValuesComplex (rowText : String) : List ScalarValue :=
  pvcCore rowText.data false none false [] []

/-- Does the raw values text contain the row-separator pattern `),(`
(JavaScript `valuesText.includes('),(')`)? -/
def hasRowSep : List Char → Bool
  | ')' :: ',' :: '(' :: _ => true
  | _ :: rest => hasRowSep rest
  | [] => false

/-- Embedding of the scanning loop of `splitInsertValues`
(src/sql-dump-parser.js, lines 267-336).  Each character updates string state
(quote toggling guarded by the escape flag), then either sets the escape flag
(backslash, which is appended), or updates the parenthesis depth outside
strings and is appended; after appending, a `)` at depth 0 outside a string
followed by `,(` closes the current row (the comma and opening parenthesis are
skipped, the `)` having already been appended).  Returns the completed rows
and the pending row text.  The leading `Nat` is loop fuel standing in for the
source's indexed `for` loop: each iteration consumes one unit and at least one
character, so passing the text length reproduces the loop exactly. -/
def splitCore : Nat → List Char → Bool → Option Char → Bool → Int → List Char →
    List (List Char) → List (List Char) × List Char
  | _, [], _, _, _, _, cur, acc => (acc, cur)
  | 0, _ :: _, _, _, _, _, cur, acc => (acc, cur)
  | fuel + 1, c :: rest, inString, sc, escaped, depth, cur, acc =>
    let st :=
      if (c = squote ∨ c = dquote) ∧ escaped = false then
        if inString = false then (true, some c)
        else if some c = sc then (false, (none : Option Char))
        else (inString, sc)
      else (inString, sc)
    if c = bslash ∧ escaped = false then
      splitCore fuel rest st.1 st.2 true depth (cur ++ [c]) acc
    else
      let depth' :=
        if c = '(' ∧ st.1 = false then depth + 1
        else if c = ')' ∧ st.1 = false then depth - 1
        else depth
      let cur' := cur ++ [c]
      if depth' = 0 ∧ st.1 = false ∧ c = ')' then
        match rest with
        | ',' :: '(' :: rest2 => splitCore fuel rest2 st.1 st.2 false depth' [] (acc ++ [cur'])
        | _ => splitCore fuel rest st.1 st.2 false depth' cur' acc
      else splitCore fuel rest st.1 st.2 false depth' cur' acc

/-- Embedding of `splitInsertValues(valuesText)` (src/sql-dump-parser.js,
lines 267-336): without a `),(` separator the trimmed text is a single row;
otherwise the scan runs, the pending text is appended when non-empty, and an
empty result falls back to the whole trimmed text. -/
def splitInsertValues (valuesText : String) : List String :=
  if hasRowSep valuesText.data = false then [jsTrim valuesText]
  else
    let (acc, cur) := splitCore valuesText.data.length valuesText.data false none false 0 [] []
    let result := if cur ≠ [] then acc ++ [cur] else acc
    if result = [] ∧ jsTrim valuesText ≠ "" then [jsTrim valuesText]
    else result.map (fun cs => (⟨cs⟩ : String))

/-- A parsed row: column name to typed scalar, in assignment order. -/
abbrev Row := List (String × ScalarValue)

/-- The row-object construction guard of `extractTableData`
(src/sql-dump-parser.js, lines 248-254) and of the per-statement recovery pass
(lines 142-147): a row is emitted only when `0 < values.length` and
`values.length <= columns.length`, assigning `rowData[columns[i]] = values[i]`
for each parsed value. -/
def buildRowObj (columns : List String) (values : List ScalarValue) : Option Row :=
  if 0 < values.length ∧ values.length ≤ columns.length then
    some (columns.zip values)
  else none

/-- The per-row body of `extractTableData` (src/sql-dump-parser.js, lines
236-254): trim the row text, strip one outer parenthesis pair when the text
both starts with `(` and ends with `)`, lex the fields with
`parseValuesComplex`, and keep the rows the guard admits. -/
def rowsToData (columns : List String) (rows : List String) : List Row :=
  rows.filterMap (fun rowText =>
    let t := jsTrimL rowText.data
    let t2 :=
      if t.head? = some '(' ∧ t.getLast? = some ')' then jsSub1 t
      else t
    buildRowObj columns (parseValuesComplex ⟨t2⟩))

/-- `extractTableData` for one matched `VALUES` text (the surrounding regex
statement matching reads the dump file and is elided): split the text into row
texts, then build row objects. -/
def extractTableData (columns : List String) (valuesText : String) : List Row :=
  rowsToData columns (splitInsertValues valuesText)

/-! ## Identifier mapper (src/utils/uuid-mapper.js, bundled with the chatroom
migration module)

JavaScript objects keyed by strings are embedded as association lists with a
lookup that returns the first matching key; every mutation goes through `aset`,
which replaces the first occurrence or appends, so reachable states keep keys
unique exactly like a JavaScript object. -/

/-- First-match association-list lookup (property read `obj[key]`). -/
def alookup {α : Type} : List (String × α) → String → Option α
  | [], _ => none
  | (k', v) :: rest, k => if k' = k then some v else alookup rest k

/-- Association-list update (property write `obj[key] = v`): replace the first
binding of the key, or append a new binding. -/
def aset {α : Type} : List (String × α) → String → α → List (String × α)
  | [], k, v => [(k, v)]
  | (k', v') :: rest, k, v =>
    if k' = k then (k, v) :: rest else (k', v') :: aset rest k v

/-- The two-level mapping tables (`idMappings` without its `_meta` block, and
`reverseIdMappings`): entity type to inner map. -/
abbrev Maps := List (String × List (String × String))

/-- Nested lookup `obj[entity]?.[key]`. -/
def lookup2 (m : Maps) (e k : String) : Option String :=
  match alookup m e with
  | some inner => alookup inner k
  | none => none

/-- Nested write `obj[entity][key] = v` after ensuring `obj[entity]` exists
(a missing entity map reads as empty). -/
def set2 (m : Maps) (e k v : String) : Maps :=
  aset m e (aset ((alookup m e).getD []) k v)

/-- The old SQL id values the mapper receives (`number|string`, or a missing
reference). -/
inductive SqlId where
  | num : Int → SqlId
  | str : String → SqlId
  | nullV : SqlId
  | undef : SqlId
deriving DecidableEq, Repr

/-- The guard `!oldId || oldId === 0` at the top of every mapper operation:
JavaScript falsiness rejects `null`, `undefined`, the number `0` and the empty
string; the strict comparison with the number `0` adds nothing new.  Note the
string `"0"` is truthy and passes. -/
def idFalsy : SqlId → Bool
  | .num n => n = 0
  | .str s => s = ""
  | .nullV => true
  | .undef => true

/-- `String(oldId)`. -/
def idToStr : SqlId → String
  | .num n => toString n
  | .str s => s
  | .nullV => "null"
  | .undef => "undefined"

/-- The fixed namespace constant `UUID_NAMESPACE` of the mapper. -/
def UUID_NAMESPACE : String := "6ba7b810-9dad-11d1-80b4-00c04fd430c8"

/-- Modelled from the spec: the external `uuid` library's `v5(seed, namespace)`
(name-based, SHA-1) is a pure function of its two string arguments producing a
reproducible identifier.  It is represented here by an injective pairing of
namespace and seed; the determinism arguments below use only that it is a
function, and the concrete counterexamples use only that distinct seeds give
distinct outputs (true of the real v5 up to negligible SHA-1 collisions). -/
def uuidv5 (seed ns : String) : String := ns ++ "#" ++ seed

/-- The hand-maintained alias list: entity types mirrored into the
consolidated `listings` namespace. -/
def listingEntities : List String :=
  ["businesses", "franchise", "investors", "startups", "digital_assets"]

/-- The mapper's mutable state: forward table (`idMappings` minus `_meta`),
reverse table (`reverseIdMappings`), and the `_meta.totalMappings` counter
(`_meta.lastUpdated` is a wall-clock timestamp and is elided). -/
structure MapperState where
  fwd : Maps
  rev : Maps
  total : Nat
deriving DecidableEq, Repr

/-- The module-initialisation state: every declared entity type present with
an empty inner map, no reverse entries, zero mappings. -/
def initState : MapperState :=
  { fwd := [("users", []), ("businesses", []), ("franchise", []), ("investors", []),
            ("listings", []), ("plans", []), ("reviews", []), ("subscriptions", []),
            ("transactions", []), ("chatrooms", []), ("messages", []), ("industries", []),
            ("sub_industries", []), ("cities", []), ("states", [])],
    rev := [], total := 0 }

/-- The creation path of `getOrCreateUUID` (src/migrations/chatrooms-migration.js
concatenation, lines 234-275): derive the stable id with `uuidv5` from the seed
`entity:id` and the fixed namespace, store it, update the reverse index, bump
the mapping count, and mirror listing-variant entity types into the
consolidated `listings` namespace (forward and reverse). -/
def mkNewMapping (st : MapperState) (fwd0 : Maps) (e id : String) :
    Option String × MapperState :=
  let nu := uuidv5 (e ++ ":" ++ id) UUID_NAMESPACE
  let fwd1 := set2 fwd0 e id nu
  let rev1 := set2 st.rev e nu id
  if e ∈ listingEntities then
    (some nu, ⟨set2 fwd1 "listings" id nu, set2 rev1 "listings" nu id, st.total + 1⟩)
  else
    (some nu, ⟨fwd1, rev1, st.total + 1⟩)

/-- The guard `if (!idMappings[entity]) idMappings[entity] = {}`: ensure the
entity's inner map exists. -/
def ensureEntity (m : Maps) (e : String) : Maps :=
  if (alookup m e).isNone then aset m e [] else m

/-- Embedding of `getOrCreateUUID(entity, oldId)` with its default options
(`deterministic = true`, `updateReverse = true`, no namespace override or
prefix — every call site in the repository uses the defaults): reject falsy
ids, ensure the entity map exists, return a truthy cached id, and otherwise
create the mapping deterministically. -/
def getOrCreateUUID (st : MapperState) (e : String) (oldId : SqlId) :
    Option String × MapperState :=
  if idFalsy oldId then (none, st)
  else
    let id := idToStr oldId
    let fwd0 := ensureEntity st.fwd e
    match lookup2 fwd0 e id with
    | some u => if u = "" then mkNewMapping st fwd0 e id else (some u, { st with fwd := fwd0 })
    | none => mkNewMapping st fwd0 e id

/-- The consolidated-namespace fallback of `getUUID`: listing-variant entity
types fall back to a truthy entry of the `listings` table. -/
def listingFallback (st : MapperState) (id : String) (e : String) : Option String :=
  if e ∈ listingEntities then
    match lookup2 st.fwd "listings" id with
    | some u => if u = "" then none else some u
    | none => none
  else none

/-- Embedding of `getUUID(entity, oldId)`: read-only lookup, truthy direct hit
first, then the listing fallback, else null. -/
def getUUID (st : MapperState) (e : String) (oldId : SqlId) : Option String :=
  if idFalsy oldId then none
  else
    let id := idToStr oldId
    match lookup2 st.fwd e id with
    | some u => if u = "" then listingFallback st id e else some u
    | none => listingFallback st id e

/-- Embedding of `saveMappingsToFile(filePath)`: the persisted artifact is the
serialized forward table (the `_meta` block and the JSON/file-system layer,
which round-trip the structured data unchanged, are elided). -/
def saveMappingsToFile (st : MapperState) : Maps := st.fwd

/-- `Object.assign(idMappings, loadedMappings)`: copy each entity key of the
file over the in-memory table, replacing whole inner maps. -/
def assignAll (base : Maps) (file : Maps) : Maps :=
  file.foldl (fun b p => aset b p.1 p.2) base

/-- The reverse-index rebuild loop of `loadMappingsFromFile`: for every entity
of the merged forward table and every `(id, uuid)` binding, set
`reverseIdMappings[entity][uuid] = id` (existing reverse entries are written
over but never removed). -/
def rebuildRev (fwd : Maps) (rev : Maps) : Maps :=
  fwd.foldl (fun r p => p.2.foldl (fun r2 q => set2 r2 p.1 q.2 q.1) r) rev

/-- Embedding of `loadMappingsFromFile(filePath)`: `Object.assign` the file's
entity tables over the in-memory forward table, then rebuild the reverse index
from the merged forward table. -/
def loadMappingsFromFile (st : MapperState) (file : Maps) : MapperState :=
  let fwd' := assignAll st.fwd file
  ⟨fwd', rebuildRev fwd' st.rev, st.total⟩

/-- `n` successive `getOrCreateUUID` calls against the shared mapper state:
the interleaving model for concurrent transforms.  Mapper operations are
synchronous JavaScript functions, so on Node's event loop each call runs
atomically; any schedule of racing callers is one such sequence. -/
def iterateGoC : Nat → MapperState → String → SqlId → List (Option String) × MapperState
  | 0, st, _, _ => ([], st)
  | n + 1, st, e, oldId =>
    ((getOrCreateUUID st e oldId).1 ::
        (iterateGoC n (getOrCreateUUID st e oldId).2 e oldId).1,
      (iterateGoC n (getOrCreateUUID st e oldId).2 e oldId).2)

/-- Keys of an association list are pairwise distinct (every state reachable
through the JavaScript object model satisfies this; association lists can
express states a JavaScript object cannot, so the general theorems assume it).
-/
def NDK {α : Type} (m : List (String × α)) : Prop := (m.map Prod.fst).Nodup

instance {α : Type} (m : List (String × α)) : Decidable (NDK m) := by
  unfold NDK; infer_instance

/-- Number of bindings of a key in an inner map (used to state that a key has
exactly one entry). -/
def countKey (m : List (String × String)) (k : String) : Nat :=
  (m.filter (fun p => p.1 == k)).length

/-! ## Association-list lemmas -/

theorem alookup_aset_self {α : Type} (m : List (String × α)) (k : String) (v : α) :
    alookup (aset m k v) k = some v := by
  induction m with
  | nil => simp [aset, alookup]
  | cons p rest ih =>
    obtain ⟨k', v'⟩ := p
    by_cases h : k' = k
    · simp [aset, alookup, h]
    · simp [aset, alookup, h, ih]

theorem alookup_aset_ne {α : Type} (m : List (String × α)) {k k' : String} (v : α)
    (h : k' ≠ k) : alookup (aset m k' v) k = alookup m k := by
  induction m with
  | nil => simp [aset, alookup, h]
  | cons p rest ih =>
    obtain ⟨k0, v0⟩ := p
    by_cases h0 : k0 = k'
    · subst h0; simp [aset, alookup, h, ih]
    · simp [aset, alookup, h0, ih]

theorem alookup_mem {α : Type} {m : List (String × α)} {k : String} {v : α}
    (h : alookup m k = some v) : (k, v) ∈ m := by
  induction m with
  | nil => simp [alookup] at h
  | cons p rest ih =>
    obtain ⟨k0, v0⟩ := p
    by_cases h0 : k0 = k
    · subst h0
      simp [alookup] at h
      simp [h]
    · simp [alookup, h0] at h
      exact List.mem_cons_of_mem _ (ih h)

theorem alookup_none_not_mem {α : Type} {m : List (String × α)} {k : String}
    (h : alookup m k = none) : ∀ v : α, (k, v) ∉ m := by
  induction m with
  | nil => simp
  | cons p rest ih =>
    obtain ⟨k0, v0⟩ := p
    by_cases h0 : k0 = k
    · simp [alookup, h0] at h
    · simp [alookup, h0] at h
      intro v hv
      rcases List.mem_cons.mp hv with h1 | h1
      · exact h0 (congrArg Prod.fst h1).symm
      · exact ih h v h1

theorem aset_of_not_mem {α : Type} {m : List (String × α)} {k : String}
    (h : alookup m k = none) (v : α) : aset m k v = m ++ [(k, v)] := by
  induction m with
  | nil => simp [aset]
  | cons p rest ih =>
    obtain ⟨k0, v0⟩ := p
    by_cases h0 : k0 = k
    · simp [alookup, h0] at h
    · simp [alookup, h0] at h
      simp [aset, h0, ih h]

theorem ndk_aset {α : Type} {m : List (String × α)} (h : NDK m) (k : String) (v : α) :
    NDK (aset m k v) := by
  induction m with
  | nil => simp [aset, NDK]
  | cons p rest ih =>
    obtain ⟨k0, v0⟩ := p
    unfold NDK at h
    simp only [List.map_cons, List.nodup_cons] at h
    by_cases h0 : k0 = k
    · subst h0
      have ha : aset ((k0, v0) :: rest) k0 v = (k0, v) :: rest := by simp [aset]
      rw [ha]
      unfold NDK
      simp only [List.map_cons, List.nodup_cons]
      exact h
    · have hrest := ih h.2
      unfold NDK
      simp only [aset, if_neg h0, List.map_cons, List.nodup_cons]
      refine ⟨?_, hrest⟩
      intro hmem
      rcases List.mem_map.mp hmem with ⟨q, hq, hq1⟩
      rcases aset_mem_fst hq with h1 | h1
      · exact h.1 (hq1 ▸ List.mem_map_of_mem Prod.fst h1)
      · apply h0
        rw [h1] at hq1
        exact hq1.symm
where
  aset_mem_fst {α : Type} {m : List (String × α)} {k : String} {v : α} {q : String × α}
      (hq : q ∈ aset m k v) : q ∈ m ∨ q = (k, v) := by
    induction m with
    | nil => simp [aset] at hq; simp [hq]
    | cons p rest ih =>
      obtain ⟨k0, v0⟩ := p
      by_cases h0 : k0 = k
      · simp [aset, h0] at hq
        rcases hq with h1 | h1
        · right; simp [h1]
        · left; exact List.mem_cons_of_mem _ h1
      · simp [aset, h0] at hq
        rcases hq with h1 | h1
        · left; simp [h1]
        · rcases ih h1 with h2 | h2
          · left; exact List.mem_cons_of_mem _ h2
          · right; exact h2

theorem lookup2_set2_self (m : Maps) (e k v : String) :
    lookup2 (set2 m e k v) e k = some v := by
  unfold lookup2 set2
  rw [alookup_aset_self]
  exact alookup_aset_self _ _ _

theorem lookup2_set2_ne (m : Maps) {e' k' : String} (e k v : String)
    (h : e' ≠ e ∨ k' ≠ k) : lookup2 (set2 m e' k' v) e k = lookup2 m e k := by
  unfold lookup2 set2
  by_cases he : e' = e
  · subst he
    rcases h with h | h
    · exact absurd rfl h
    · rw [alookup_aset_self]
      cases hm : alookup m e' with
      | none => simp [hm, alookup_aset_ne _ _ h, alookup, h]
      | some inner => simp [hm, alookup_aset_ne _ _ h]
  · rw [alookup_aset_ne _ _ he]

/-! ## `Object.assign` / load lemmas -/

theorem alookup_assignAll_not_mem {base file : Maps} {e : String}
    (h : alookup file e = none) : alookup (assignAll base file) e = alookup base e := by
  induction file generalizing base with
  | nil => rfl
  | cons p rest ih =>
    obtain ⟨e0, m0⟩ := p
    by_cases h0 : e0 = e
    · simp [alookup, h0] at h
    · simp [alookup, h0] at h
      show alookup (assignAll (aset base e0 m0) rest) e = alookup base e
      rw [ih h, alookup_aset_ne _ _ h0]

theorem alookup_assignAll {file : Maps} (hf : NDK file) (base : Maps) (e : String) :
    alookup (assignAll base file) e =
      match alookup file e with
      | some m => some m
      | none => alookup base e := by
  induction file generalizing base with
  | nil => rfl
  | cons p rest ih =>
    obtain ⟨e0, m0⟩ := p
    unfold NDK at hf
    simp only [List.map_cons, List.nodup_cons] at hf
    have hrest : NDK rest := hf.2
    by_cases h0 : e0 = e
    · subst h0
      have hnone : alookup rest e0 = none := by
        cases hr : alookup rest e0 with
        | none => rfl
        | some m =>
          exact absurd (List.mem_map_of_mem Prod.fst (alookup_mem hr)) hf.1
      show alookup (assignAll (aset base e0 m0) rest) e0 = _
      rw [alookup_assignAll_not_mem hnone, alookup_aset_self]
      simp [alookup]
    · show alookup (assignAll (aset base e0 m0) rest) e = _
      rw [ih hrest]
      cases hr : alookup rest e with
      | none => simp [alookup, h0, hr, alookup_aset_ne _ _ h0]
      | some m => simp [alookup, h0, hr]

theorem initState_fwd_empty {e : String} {m : List (String × String)}
    (h : alookup initState.fwd e = some m) : m = [] := by
  have hm := alookup_mem h
  simp only [initState, List.mem_cons, List.not_mem_nil, or_false] at hm
  rcases hm with h1 | h1 | h1 | h1 | h1 | h1 | h1 | h1 | h1 | h1 | h1 | h1 | h1 | h1 | h1 <;>
    exact congrArg Prod.snd h1

theorem lookup2_load_from_init {file : Maps} (hf : NDK file) (e k : String) :
    lookup2 (assignAll initState.fwd file) e k = lookup2 file e k := by
  unfold lookup2
  rw [alookup_assignAll hf]
  cases hfe : alookup file e with
  | some m => rfl
  | none =>
    cases hi : alookup initState.fwd e with
    | none => rfl
    | some m0 => rw [initState_fwd_empty hi]; rfl

/-! ## `getOrCreateUUID` characterization lemmas -/

theorem uuidv5_ne_empty (seed : String) : uuidv5 seed UUID_NAMESPACE ≠ "" := by
  intro h
  have hlen := congrArg String.length h
  simp [uuidv5] at hlen
  exact absurd hlen.1 (by decide)

theorem lookup2_fwd0 (st : MapperState) (e id : String) :
    lookup2 (ensureEntity st.fwd e) e id = lookup2 st.fwd e id := by
  unfold ensureEntity
  cases ha : alookup st.fwd e with
  | none =>
    simp only [ha, Option.isNone_none, if_pos]
    unfold lookup2
    rw [alookup_aset_self, ha]
    simp [alookup]
  | some inner => simp [ha]

theorem alookup_fwd0_isSome (st : MapperState) (e : String) :
    (alookup (ensureEntity st.fwd e) e).isSome := by
  unfold ensureEntity
  cases ha : alookup st.fwd e with
  | none => simp [ha, alookup_aset_self]
  | some inner => simp [ha]

/-- A truthy cached entry makes `getOrCreateUUID` a pure read: it returns the
cached id and leaves the state unchanged. -/
theorem getOrCreateUUID_cached {st : MapperState} {e : String} {oldId : SqlId} {u : String}
    (hv : idFalsy oldId = false)
    (hl : lookup2 st.fwd e (idToStr oldId) = some u) (hne : u ≠ "") :
    getOrCreateUUID st e oldId = (some u, st) := by
  unfold getOrCreateUUID
  rw [hv]
  simp only [Bool.false_eq_true, if_false]
  have hsome : (alookup st.fwd e).isSome := by
    unfold lookup2 at hl
    cases ha : alookup st.fwd e with
    | none => rw [ha] at hl; simp at hl
    | some inner => simp
  have hf0 : ensureEntity st.fwd e = st.fwd := by
    unfold ensureEntity
    rcases Option.isSome_iff_exists.mp hsome with ⟨inner, hi⟩
    simp [hi]
  rw [hf0, hl]
  simp [hne]

/-- A creating call (no entry, or a falsy cached entry) returns the
deterministic v5 id of the namespace constant and the `(entityType, sourceId)`
pair. -/
theorem getOrCreateUUID_creates {st : MapperState} {e : String} {oldId : SqlId}
    (hv : idFalsy oldId = false)
    (hl : lookup2 st.fwd e (idToStr oldId) = none) :
    (getOrCreateUUID st e oldId).1 =
      some (uuidv5 (e ++ ":" ++ idToStr oldId) UUID_NAMESPACE) := by
  have h0 : lookup2 (ensureEntity st.fwd e) e (idToStr oldId) = none :=
    (lookup2_fwd0 st e _).trans hl
  unfold getOrCreateUUID
  rw [hv]
  simp only [Bool.false_eq_true, if_false, h0]
  unfold mkNewMapping
  by_cases hL : e ∈ listingEntities <;> simp [hL]

theorem mem_listingEntities_ne (e : String) (h : e ∈ listingEntities) : e ≠ "listings" := by
  fin_cases h <;> decide

/-- The forward entry written by `mkNewMapping` for the requested pair. -/
theorem mkNewMapping_lookup (st : MapperState) (fwd0 : Maps) (e id : String) :
    lookup2 ((mkNewMapping st fwd0 e id).2).fwd e id =
      some (uuidv5 (e ++ ":" ++ id) UUID_NAMESPACE) := by
  unfold mkNewMapping
  by_cases hL : e ∈ listingEntities
  · simp only [hL, if_pos]
    rw [lookup2_set2_ne _ _ _ _ (Or.inl (Ne.symm (mem_listingEntities_ne e hL)))]
    exact lookup2_set2_self _ _ _ _
  · simp only [hL, if_neg, if_false]
    exact lookup2_set2_self _ _ _ _

theorem mkNewMapping_fst (st : MapperState) (fwd0 : Maps) (e id : String) :
    (mkNewMapping st fwd0 e id).1 = some (uuidv5 (e ++ ":" ++ id) UUID_NAMESPACE) := by
  unfold mkNewMapping
  by_cases hL : e ∈ listingEntities <;> simp [hL]

/-- A creating call on a missing entry runs `mkNewMapping`. -/
theorem getOrCreateUUID_new {st : MapperState} {e : String} {oldId : SqlId}
    (hv : idFalsy oldId = false)
    (hl : lookup2 st.fwd e (idToStr oldId) = none) :
    getOrCreateUUID st e oldId = mkNewMapping st (ensureEntity st.fwd e) e (idToStr oldId) := by
  unfold getOrCreateUUID
  rw [hv]
  simp only [Bool.false_eq_true, if_false]
  rw [(lookup2_fwd0 st e _).trans hl]

/-- A falsy (empty-string) cached entry also runs `mkNewMapping`, overwriting. -/
theorem getOrCreateUUID_overwrite {st : MapperState} {e : String} {oldId : SqlId}
    (hv : idFalsy oldId = false)
    (hl : lookup2 st.fwd e (idToStr oldId) = some "") :
    getOrCreateUUID st e oldId = mkNewMapping st (ensureEntity st.fwd e) e (idToStr oldId) := by
  unfold getOrCreateUUID
  rw [hv]
  simp only [Bool.false_eq_true, if_false]
  rw [(lookup2_fwd0 st e _).trans hl]
  simp

/-- Whenever `getOrCreateUUID` returns an id, the resulting state carries that
id as a truthy forward entry for the requested pair. -/
theorem getOrCreateUUID_some_lookup {st : MapperState} {e : String} {oldId : SqlId} {u : String}
    (h : (getOrCreateUUID st e oldId).1 = some u) :
    lookup2 ((getOrCreateUUID st e oldId).2).fwd e (idToStr oldId) = some u ∧ u ≠ "" := by
  by_cases hv : idFalsy oldId
  · rw [show getOrCreateUUID st e oldId = (none, st) from by unfold getOrCreateUUID; rw [hv]; rfl]
      at h
    simp at h
  · simp only [Bool.not_eq_true] at hv
    cases hc : lookup2 st.fwd e (idToStr oldId) with
    | some u0 =>
      by_cases h0 : u0 = ""
      · subst h0
        rw [getOrCreateUUID_overwrite hv hc] at h ⊢
        rw [mkNewMapping_fst] at h
        rw [mkNewMapping_lookup]
        exact ⟨h, (Option.some.inj h) ▸ uuidv5_ne_empty _⟩
      · rw [getOrCreateUUID_cached hv hc h0] at h ⊢
        have hu : u0 = u := Option.some.inj h
        subst hu
        exact ⟨hc, h0⟩
    | none =>
      rw [getOrCreateUUID_new hv hc] at h ⊢
      rw [mkNewMapping_fst] at h
      rw [mkNewMapping_lookup]
      exact ⟨h, (Option.some.inj h) ▸ uuidv5_ne_empty _⟩

/-- A valid source id always yields an id. -/
theorem getOrCreateUUID_isSome {st : MapperState} {e : String} {oldId : SqlId}
    (hv : idFalsy oldId = false) : ((getOrCreateUUID st e oldId).1).isSome := by
  cases hc : lookup2 st.fwd e (idToStr oldId) with
  | some u0 =>
    by_cases h0 : u0 = ""
    · subst h0
      rw [getOrCreateUUID_overwrite hv hc, mkNewMapping_fst]
      rfl
    · rw [getOrCreateUUID_cached hv hc h0]
      rfl
  | none =>
    rw [getOrCreateUUID_new hv hc, mkNewMapping_fst]
    rfl

theorem ndk_ensureEntity {m : Maps} (h : NDK m) (e : String) : NDK (ensureEntity m e) := by
  unfold ensureEntity
  by_cases h0 : (alookup m e).isNone
  · rw [if_pos h0]
    exact ndk_aset h e []
  · rw [if_neg h0]
    exact h

theorem ndk_set2 {m : Maps} (h : NDK m) (e k v : String) : NDK (set2 m e k v) :=
  ndk_aset h e _

theorem mkNewMapping_ndk {st : MapperState} {fwd0 : Maps} (h : NDK fwd0) (e id : String) :
    NDK ((mkNewMapping st fwd0 e id).2).fwd := by
  unfold mkNewMapping
  by_cases hL : e ∈ listingEntities
  · rw [if_pos hL]
    exact ndk_set2 (ndk_set2 h _ _ _) _ _ _
  · rw [if_neg hL]
    exact ndk_set2 h _ _ _

/-- `getOrCreateUUID` preserves distinctness of the forward table's keys. -/
theorem getOrCreateUUID_ndk {st : MapperState} (h : NDK st.fwd) (e : String) (oldId : SqlId) :
    NDK ((getOrCreateUUID st e oldId).2).fwd := by
  by_cases hv : idFalsy oldId
  · rw [show getOrCreateUUID st e oldId = (none, st) from by unfold getOrCreateUUID; rw [hv]; rfl]
    exact h
  · simp only [Bool.not_eq_true] at hv
    have h0 : NDK (ensureEntity st.fwd e) := ndk_ensureEntity h e
    cases hc : lookup2 st.fwd e (idToStr oldId) with
    | some u0 =>
      by_cases hu : u0 = ""
      · subst hu
        rw [getOrCreateUUID_overwrite hv hc]
        exact mkNewMapping_ndk h0 _ _
      · rw [getOrCreateUUID_cached hv hc hu]
        exact h
    | none =>
      rw [getOrCreateUUID_new hv hc]
      exact mkNewMapping_ndk h0 _ _

/-! ## Reverse-index rebuild lemmas -/

theorem lookup2_set2_isSome {r : Maps} {e u : String} (a b v : String)
    (h : (lookup2 r e u).isSome) : (lookup2 (set2 r a b v) e u).isSome := by
  by_cases hab : a = e ∧ b = u
  · obtain ⟨rfl, rfl⟩ := hab
    rw [lookup2_set2_self]
    rfl
  · rw [lookup2_set2_ne _ _ _ _ (not_and_or.mp hab)]
    exact h

theorem foldl_inner_isSome_preserve (m : List (String × String)) (e0 : String) {e u : String}
    (r : Maps) (h : (lookup2 r e u).isSome) :
    (lookup2 (m.foldl (fun r2 q => set2 r2 e0 q.2 q.1) r) e u).isSome := by
  induction m generalizing r with
  | nil => exact h
  | cons q rest ih => exact ih _ (lookup2_set2_isSome _ _ _ h)

theorem foldl_inner_mem_isSome (m : List (String × String)) (e0 : String) {k u : String}
    (r : Maps) (hm : (k, u) ∈ m) :
    (lookup2 (m.foldl (fun r2 q => set2 r2 e0 q.2 q.1) r) e0 u).isSome := by
  induction m generalizing r with
  | nil => simp at hm
  | cons q rest ih =>
    rcases List.mem_cons.mp hm with h1 | h1
    · subst h1
      exact foldl_inner_isSome_preserve rest e0 _
        (by rw [lookup2_set2_self]; rfl)
    · exact ih _ h1

theorem foldl_outer_isSome_preserve (fwd : Maps) {e u : String} (r : Maps)
    (h : (lookup2 r e u).isSome) :
    (lookup2 (fwd.foldl (fun r p => p.2.foldl (fun r2 q => set2 r2 p.1 q.2 q.1) r) r) e u).isSome := by
  induction fwd generalizing r with
  | nil => exact h
  | cons p rest ih => exact ih _ (foldl_inner_isSome_preserve p.2 p.1 _ h)

/-- Every forward binding of `fwd` is reflected in the rebuilt reverse index:
the stable id can be looked up under its entity type. -/
theorem rebuildRev_covers {fwd : Maps} {e k u : String} (rev : Maps)
    (h : lookup2 fwd e k = some u) : (lookup2 (rebuildRev fwd rev) e u).isSome := by
  unfold rebuildRev
  induction fwd generalizing rev with
  | nil => simp [lookup2, alookup] at h
  | cons p rest ih =>
    obtain ⟨e0, m0⟩ := p
    by_cases h0 : e0 = e
    · subst h0
      unfold lookup2 at h
      rw [show alookup ((e0, m0) :: rest) e0 = some m0 from by simp [alookup]] at h
      have hm : (k, u) ∈ m0 := alookup_mem h
      rw [List.foldl_cons]
      exact foldl_outer_isSome_preserve rest _ (foldl_inner_mem_isSome m0 e0 rev hm)
    · have h' : lookup2 rest e k = some u := by
        unfold lookup2 at h ⊢
        rwa [show alookup ((e0, m0) :: rest) e = alookup rest e from by simp [alookup, h0]] at h
      rw [List.foldl_cons]
      exact ih _ h'

/-! ## Entry-count lemmas -/

theorem countKey_zero {m : List (String × String)} {k : String}
    (h : alookup m k = none) : countKey m k = 0 := by
  induction m with
  | nil => rfl
  | cons p rest ih =>
    obtain ⟨k0, v0⟩ := p
    by_cases h0 : k0 = k
    · simp [alookup, h0] at h
    · simp only [alookup, if_neg h0] at h
      unfold countKey at ih ⊢
      simp [List.filter_cons, h0, ih h]

theorem countKey_aset_new {m : List (String × String)} {k : String} (v : String)
    (h : alookup m k = none) : countKey (aset m k v) k = 1 := by
  rw [aset_of_not_mem h]
  unfold countKey
  rw [List.filter_append, List.length_append]
  have h0 : (m.filter (fun p => p.1 == k)).length = 0 := countKey_zero h
  simp [h0]

/-- After a creating call, the inner map read out of the entity's table has
the looked-up shape needed for the uniqueness count. -/
theorem ensure_inner_none {st : MapperState} {e id : String}
    (hl : lookup2 st.fwd e id = none) :
    alookup ((alookup (ensureEntity st.fwd e) e).getD []) id = none := by
  unfold ensureEntity
  cases ha : alookup st.fwd e with
  | none =>
    simp only [ha, Option.isNone_none, if_pos]
    rw [alookup_aset_self]
    rfl
  | some m0 =>
    unfold lookup2 at hl
    rw [ha] at hl
    simp only [ha, Option.isNone_some, Bool.false_eq_true, if_false, Option.getD_some]
    exact hl

theorem getOrCreateUUID_falsy {st : MapperState} {e : String} {oldId : SqlId}
    (h : idFalsy oldId = true) : getOrCreateUUID st e oldId = (none, st) := by
  unfold getOrCreateUUID
  rw [h]
  rfl

theorem getUUID_falsy {st : MapperState} {e : String} {oldId : SqlId}
    (h : idFalsy oldId = true) : getUUID st e oldId = none := by
  unfold getUUID
  rw [h]
  rfl

/-- A truthy cached entry keeps the state fixed across any number of repeated
calls, every call returning the cached id. -/
theorem iterate_stable {st : MapperState} {e : String} {oldId : SqlId} {u : String}
    (hv : idFalsy oldId = false) (hl : lookup2 st.fwd e (idToStr oldId) = some u)
    (hne : u ≠ "") :
    ∀ n, iterateGoC n st e oldId = (List.replicate n (some u), st) := by
  intro n
  induction n with
  | zero => rfl
  | succ k ih =>
    unfold iterateGoC
    rw [getOrCreateUUID_cached hv hl hne]
    simp only [ih, List.replicate_succ]

/-! ## Value-lexer lemmas -/

theorem replaceEsc_no_bslash {cs : List Char} (h : bslash ∉ cs) (p r : Char) :
    replaceEsc p r cs = cs := by
  induction cs with
  | nil => rfl
  | cons c rest ih =>
    have hc : c ≠ bslash := fun hc => h (hc ▸ List.mem_cons_self c rest)
    have hrest : bslash ∉ rest := fun hr => h (List.mem_cons_of_mem c hr)
    unfold replaceEsc
    rw [if_neg hc, ih hrest]

theorem unescapeSql_no_bslash {cs : List Char} (h : bslash ∉ cs) : unescapeSql cs = cs := by
  unfold unescapeSql
  rw [replaceEsc_no_bslash h, replaceEsc_no_bslash h, replaceEsc_no_bslash h]

/-- The value lexer on any single-quoted token without backslashes returns the
enclosed text as a string — whatever the enclosed text is, numeral included. -/
theorem processValue_quoted (s : String) (hs : bslash ∉ s.data) :
    processValue ⟨squote :: s.data ++ [squote]⟩ = ScalarValue.str s := by
  have hnull : jsToUpper ⟨squote :: s.data ++ [squote]⟩ ≠ "NULL" := by
    intro h
    have hd := congrArg String.data h
    have hd2 : Char.toUpper squote :: (s.data ++ [squote]).map Char.toUpper =
        ['N', 'U', 'L', 'L'] := hd
    injection hd2 with h1 _
    exact absurd h1 (by decide)
  have hq : isQuoted (⟨squote :: s.data ++ [squote]⟩ : String).data = true := by
    have h2 : (squote :: s.data ++ [squote]).getLast? = some squote := by
      rw [show squote :: s.data ++ [squote] = (squote :: s.data) ++ [squote] from by simp]
      exact List.getLast?_concat _
    unfold isQuoted
    rw [decide_eq_true_eq]
    exact Or.inl ⟨rfl, h2⟩
  have hsub : jsSub1 (⟨squote :: s.data ++ [squote]⟩ : String).data = s.data := by
    unfold jsSub1
    rw [if_neg (by simp)]
    simp [List.take_left]
  unfold processValue
  rw [if_neg hnull, if_pos hq, hsub, unescapeSql_no_bslash hs]

/-! ## Field-splitting lemmas (`parseValuesComplex`) -/

/-- A token none of whose characters are a quote, a backslash or a comma. -/
def plainTok (t : List Char) : Prop :=
  ∀ c ∈ t, c ≠ squote ∧ c ≠ dquote ∧ c ≠ bslash ∧ c ≠ ','

instance (t : List Char) : Decidable (plainTok t) := by
  unfold plainTok; infer_instance

/-- Join tokens with commas: the row text whose fields are the given tokens. -/
def interC : List (List Char) → List Char
  | [] => []
  | [t] => t
  | t :: ts => t ++ ',' :: interC ts

theorem interC_cons (t : List Char) (ts : List (List Char)) (h : ts ≠ []) :
    interC (t :: ts) = t ++ ',' :: interC ts := by
  cases ts with
  | nil => exact absurd rfl h
  | cons a l => rfl

/-- Scanning a plain token in the idle state appends its characters to the
pending field unchanged. -/
theorem pvcCore_plain : ∀ (t : List Char), plainTok t →
    ∀ (cs cur : List Char) (vals : List ScalarValue),
      pvcCore (t ++ cs) false none false cur vals =
        pvcCore cs false none false (cur ++ t) vals := by
  intro t
  induction t with
  | nil =>
    intro _ cs cur vals
    simp
  | cons c t' ih =>
    intro ht cs cur vals
    have hc := ht c (List.mem_cons_self c t')
    have ht' : plainTok t' := fun x hx => ht x (List.mem_cons_of_mem c hx)
    show pvcCore (c :: (t' ++ cs)) false none false cur vals = _
    simp only [pvcCore, hc.1, hc.2.1, hc.2.2.1, hc.2.2.2, Bool.false_eq_true, if_false,
      false_and, or_self, and_true, and_false]
    rw [ih ht' cs (cur ++ [c]) vals]
    simp

/-- A top-level comma in the idle state closes the pending field: the trimmed
token is lexed and pushed unconditionally. -/
theorem pvcCore_comma (cs cur : List Char) (vals : List ScalarValue) :
    pvcCore (',' :: cs) false none false cur vals =
      pvcCore cs false none false [] (vals ++ [processValue ⟨jsTrimL cur⟩]) := by
  have h1 : (',' : Char) ≠ bslash := by decide
  have h2 : (',' : Char) ≠ squote := by decide
  have h3 : (',' : Char) ≠ dquote := by decide
  simp only [pvcCore, h1, h2, h3, Bool.false_eq_true, if_false, false_and, or_self,
    and_true, if_true]

/-- Field splitting over comma-joined plain tokens: every token but the last
is lexed and kept (empties as empty strings); the final token survives only
when its trim is non-empty. -/
theorem pvc_inter_aux : ∀ (ts : List (List Char)) (t : List Char),
    (∀ tok ∈ ts, plainTok tok) → plainTok t → ∀ vals : List ScalarValue,
    pvcCore (interC (ts ++ [t])) false none false [] vals =
      vals ++ ts.map (fun tok => processValue ⟨jsTrimL tok⟩) ++
        (if (⟨jsTrimL t⟩ : String) = "" then [] else [processValue ⟨jsTrimL t⟩]) := by
  intro ts
  induction ts with
  | nil =>
    intro t _ ht vals
    rw [show interC ([] ++ [t]) = t from rfl]
    have hp := pvcCore_plain t ht [] [] vals
    rw [List.append_nil] at hp
    rw [hp]
    simp only [pvcCore, List.nil_append]
    by_cases h : (⟨jsTrimL t⟩ : String) = ""
    · simp [h]
    · simp [h]
  | cons t0 ts' ih =>
    intro t hts ht vals
    have h0 : plainTok t0 := hts t0 (List.mem_cons_self _ _)
    have hts' : ∀ tok ∈ ts', plainTok tok := fun tok htok => hts tok (List.mem_cons_of_mem _ htok)
    rw [show (t0 :: ts') ++ [t] = t0 :: (ts' ++ [t]) from rfl]
    rw [interC_cons t0 (ts' ++ [t]) (by simp)]
    rw [pvcCore_plain t0 h0 (',' :: interC (ts' ++ [t])) [] vals]
    rw [List.nil_append, pvcCore_comma]
    rw [ih t hts' ht (vals ++ [processValue ⟨jsTrimL t0⟩])]
    simp [List.append_assoc]

/-! ## Zip lemmas for row building -/

theorem zip_map_fst_take {α β : Type} : ∀ (l1 : List α) (l2 : List β),
    (l1.zip l2).map Prod.fst = l1.take l2.length := by
  intro l1
  induction l1 with
  | nil => intro l2; simp
  | cons a l1' ih =>
    intro l2
    cases l2 with
    | nil => simp
    | cons b l2' => simp [ih]

theorem zip_map_snd_self {α β : Type} : ∀ (l1 : List α) (l2 : List β),
    l2.length ≤ l1.length → (l1.zip l2).map Prod.snd = l2 := by
  intro l1
  induction l1 with
  | nil =>
    intro l2 h
    simp at h
    subst h
    simp
  | cons a l1' ih =>
    intro l2 h
    cases l2 with
    | nil => simp
    | cons b l2' =>
      simp only [List.length_cons, Nat.succ_le_succ_iff] at h
      simp [ih l2' h]

/-! ## Claim theorems: parser -/

/-- C2: the value lexer maps the claim's literal tokens as stated —
`NULL`/`null` to null, the escaped-quote string to `O'Brien`, `42` to the
integer, `3.14` to the float, the quoted numeral `'42'` to the string — and,
in general, every single-quoted token (backslash-free, numerals included)
lexes to the enclosed string, never to a coerced number. -/
theorem processValue_lexing :
    processValue "NULL" = ScalarValue.null
    ∧ processValue "null" = ScalarValue.null
    ∧ processValue "'O\\'Brien'" = ScalarValue.str "O'Brien"
    ∧ processValue "42" = ScalarValue.int 42
    ∧ processValue "3.14" = ScalarValue.float (157 / 50)
    ∧ processValue "'42'" = ScalarValue.str "42"
    ∧ (∀ s : String, bslash ∉ s.data →
        processValue ⟨squote :: s.data ++ [squote]⟩ = ScalarValue.str s) := by
  refine ⟨by decide, by decide, by decide, by decide, ?_, by decide, ?_⟩
  · have h1 : processValue "3.14" = ScalarValue.float (parseFloatJs ("3.14" : String).data) := by
      unfold processValue
      rw [if_neg (by decide), if_neg (by decide), if_pos (by decide), if_pos (by decide)]
    rw [h1, show parseFloatJs ("3.14" : String).data =
        ((3 : ℕ) : ℚ) + ((14 : ℕ) : ℚ) / 10 ^ 2 from rfl]
    norm_num
  · intro s hs
    exact processValue_quoted s hs

/-- C2 witness: the universal quoted-token clause applied to the numeral
token `'77'`. -/
theorem processValue_lexing_witness :
    processValue ⟨squote :: ("77" : String).data ++ [squote]⟩ = ScalarValue.str "77" :=
  processValue_lexing.2.2.2.2.2.2 "77" (by decide)

/-- C3 counterexample: a row of 5 parsed fields against a 3-column schema is
dropped wholesale by `extractTableData` — no truncated 3-key Row is emitted,
refuting the claim's excess-fields case. -/
theorem extractTableData_excess_cex :
    (parseValuesComplex "1,2,3,4,5").length = 5
    ∧ extractTableData ["a", "b", "c"] "(1,2,3,4,5)" = [] := by
  decide

/-- C3 amended: a row whose parsed field count exceeds the schema's column
count is skipped entirely (the guard `values.length <= columns.length` fails
and no Row is emitted); a row with at least one and at most `columns.length`
fields yields a Row whose keys are exactly the first `values.length` column
names, in order, carrying the parsed values — fewer fields than columns leave
the trailing columns absent, with no fabricated nulls. -/
theorem buildRowObj_amended (cols : List String) (vals : List ScalarValue) :
    (cols.length < vals.length → buildRowObj cols vals = none)
    ∧ (0 < vals.length → vals.length ≤ cols.length →
        ∃ r : Row, buildRowObj cols vals = some r
          ∧ r.map Prod.fst = cols.take vals.length
          ∧ r.map Prod.snd = vals) := by
  constructor
  · intro h
    unfold buildRowObj
    rw [if_neg]
    intro hc
    omega
  · intro h1 h2
    refine ⟨cols.zip vals, ?_, ?_, ?_⟩
    · unfold buildRowObj
      rw [if_pos ⟨h1, h2⟩]
    · exact zip_map_fst_take cols vals
    · exact zip_map_snd_self cols vals h2

/-- C3 witness: the amended theorem at a 2-column schema — a 3-field row is
dropped. -/
theorem buildRowObj_amended_witness :
    buildRowObj ["a", "b"] [ScalarValue.int 1, ScalarValue.int 2, ScalarValue.int 3] = none :=
  (buildRowObj_amended ["a", "b"] [ScalarValue.int 1, ScalarValue.int 2, ScalarValue.int 3]).1
    (by decide)

/-- C4 counterexample: on the claim's literal input, `splitInsertValues` does
not return the row texts `1,'a,b',NULL` and `2,'c''d',3`: the separator's `)`
is appended before the boundary test fires, so the parentheses survive in the
output rows. -/
theorem splitInsertValues_literal_cex :
    splitInsertValues "(1,'a,b',NULL),(2,'c''d',3)" ≠ ["1,'a,b',NULL", "2,'c''d',3"] := by
  decide

/-- C4 amended: `splitInsertValues` on the literal input returns exactly the
two row texts `(1,'a,b',NULL)` and `2,'c''d',3)`: the quoted comma causes no
split and the doubled quote none either; at the `),(` boundary the comma and
opening parenthesis are skipped, but the closing parenthesis has already been
appended to the finished row (and the first row keeps its leading `(`; outer
parentheses are only stripped later by the row-object builder, and only when a
row text both starts with `(` and ends with `)`). -/
theorem splitInsertValues_literal_amended :
    splitInsertValues "(1,'a,b',NULL),(2,'c''d',3)" = ["(1,'a,b',NULL)", "2,'c''d',3)"] := by
  decide

/-- C10: splitting a row text of comma-joined plain tokens lexes and keeps
every interior token — an empty or whitespace-only interior token is kept as
the empty string — but silently drops the final token when its trim is empty,
returning one fewer field than the row contains; concretely, a row ending in a
quoted empty string or a trailing comma loses its last field. -/
theorem parseValuesComplex_trailing_empty :
    (∀ (ts : List (List Char)) (t : List Char),
        (∀ tok ∈ ts, plainTok tok) → plainTok t →
        parseValuesComplex ⟨interC (ts ++ [t])⟩ =
          ts.map (fun tok => processValue ⟨jsTrimL tok⟩) ++
            (if (⟨jsTrimL t⟩ : String) = "" then []
             else [processValue ⟨jsTrimL t⟩]))
    ∧ parseValuesComplex "1,''" = [ScalarValue.int 1]
    ∧ parseValuesComplex "1,'',2" = [ScalarValue.int 1, ScalarValue.str "", ScalarValue.int 2]
    ∧ parseValuesComplex "1,2," = [ScalarValue.int 1, ScalarValue.int 2] := by
  refine ⟨?_, by decide, by decide, by decide⟩
  intro ts t hts ht
  unfold parseValuesComplex
  rw [show (⟨interC (ts ++ [t])⟩ : String).data = interC (ts ++ [t]) from rfl]
  rw [pvc_inter_aux ts t hts ht []]
  simp

/-- C10 witness: the general clause at the row `1, ` (trailing whitespace-only
token): only the interior token survives. -/
theorem parseValuesComplex_trailing_empty_witness :
    parseValuesComplex ⟨interC ([['1']] ++ [[' ']])⟩ =
      ([['1']] : List (List Char)).map (fun tok => processValue ⟨jsTrimL tok⟩) ++
        (if (⟨jsTrimL [' ']⟩ : String) = "" then []
         else [processValue ⟨jsTrimL [' ']⟩]) :=
  parseValuesComplex_trailing_empty.1 [['1']] [' '] (by decide) (by decide)

/-! ## Claim theorems: identifier mapper -/

/-- C1: for every entity type and non-falsy source id, `getOrCreateUUID` is
deterministic: (a) an immediate second call (same process) returns the same
id; (b) a creating call returns exactly the v5 id derived from the fixed
namespace constant and the `(entityType, sourceId)` pair, so independent runs
computing a fresh mapping agree; (c) after persisting and loading into a fresh
mapper instance, the call returns the identical stable id. -/
theorem getOrCreateUUID_deterministic (st : MapperState) (e : String) (oldId : SqlId)
    (hndk : NDK st.fwd) :
    ((getOrCreateUUID (getOrCreateUUID st e oldId).2 e oldId).1 =
        (getOrCreateUUID st e oldId).1)
    ∧ (idFalsy oldId = false → lookup2 st.fwd e (idToStr oldId) = none →
        (getOrCreateUUID st e oldId).1 =
          some (uuidv5 (e ++ ":" ++ idToStr oldId) UUID_NAMESPACE))
    ∧ (∀ u, (getOrCreateUUID st e oldId).1 = some u →
        (getOrCreateUUID
            (loadMappingsFromFile initState (saveMappingsToFile (getOrCreateUUID st e oldId).2))
            e oldId).1 = some u) := by
  refine ⟨?_, fun hv hl => getOrCreateUUID_creates hv hl, ?_⟩
  · by_cases hv : idFalsy oldId
    · simp [getOrCreateUUID_falsy hv]
    · simp only [Bool.not_eq_true] at hv
      rcases Option.isSome_iff_exists.mp (@getOrCreateUUID_isSome st e oldId hv)
        with ⟨u, hu⟩
      obtain ⟨hl1, hne⟩ := getOrCreateUUID_some_lookup hu
      rw [getOrCreateUUID_cached hv hl1 hne, hu]
  · intro u hu
    by_cases hv : idFalsy oldId
    · rw [getOrCreateUUID_falsy hv] at hu
      simp at hu
    · simp only [Bool.not_eq_true] at hv
      obtain ⟨hl1, hne⟩ := getOrCreateUUID_some_lookup hu
      have hndk1 : NDK ((getOrCreateUUID st e oldId).2).fwd := getOrCreateUUID_ndk hndk e oldId
      have hload : lookup2
          (loadMappingsFromFile initState
            (saveMappingsToFile (getOrCreateUUID st e oldId).2)).fwd e (idToStr oldId) =
          some u := (lookup2_load_from_init hndk1 e (idToStr oldId)).trans hl1
      rw [getOrCreateUUID_cached hv hload hne]

/-- C1 witness: the determinism theorem applied to a fresh mapper, entity
`users`, source id 7. -/
theorem getOrCreateUUID_deterministic_witness :
    (getOrCreateUUID (getOrCreateUUID initState "users" (.num 7)).2 "users" (.num 7)).1 =
      (getOrCreateUUID initState "users" (.num 7)).1 :=
  (getOrCreateUUID_deterministic initState "users" (.num 7) (by decide)).1

/-- C5 counterexample: after `businesses:7` is created, `franchise:7`
overwrites the consolidated `listings` entry; the subsequent cache-hit
`getOrCreateUUID('businesses', 7)` returns an id that `getUUID('listings', 7)`
no longer reports, refuting the claim for this reachable state. -/
theorem getOrCreateUUID_alias_cex :
    ((getOrCreateUUID
        ((getOrCreateUUID ((getOrCreateUUID initState "businesses" (.num 7)).2)
            "franchise" (.num 7)).2)
        "businesses" (.num 7)).1).isSome
    ∧ getUUID
        ((getOrCreateUUID
            ((getOrCreateUUID ((getOrCreateUUID initState "businesses" (.num 7)).2)
                "franchise" (.num 7)).2)
            "businesses" (.num 7)).2) "listings" (.num 7) ≠
      (getOrCreateUUID
          ((getOrCreateUUID ((getOrCreateUUID initState "businesses" (.num 7)).2)
              "franchise" (.num 7)).2)
          "businesses" (.num 7)).1 := by
  decide

/-- C5 amended: when `getOrCreateUUID` on a listing-variant entity type
actually creates the mapping (no prior entry for the pair), the same stable id
is immediately retrievable under the consolidated `listings` namespace; a
cache-hit return after another alias type overwrote the consolidated entry may
differ. -/
theorem getOrCreateUUID_alias_mirror (st : MapperState) (e : String) (oldId : SqlId)
    (hv : idFalsy oldId = false) (hl : lookup2 st.fwd e (idToStr oldId) = none)
    (hL : e ∈ listingEntities) :
    getUUID ((getOrCreateUUID st e oldId).2) "listings" oldId =
      (getOrCreateUUID st e oldId).1 := by
  rw [getOrCreateUUID_new hv hl]
  unfold mkNewMapping
  rw [if_pos hL]
  unfold getUUID
  rw [hv]
  simp only [Bool.false_eq_true, if_false]
  rw [lookup2_set2_self]
  simp [uuidv5_ne_empty]

/-- C5 witness: creating `businesses:7` in a fresh mapper makes the same id
readable as `listings:7`. -/
theorem getOrCreateUUID_alias_mirror_witness :
    getUUID ((getOrCreateUUID initState "businesses" (.num 7)).2) "listings" (.num 7) =
      (getOrCreateUUID initState "businesses" (.num 7)).1 :=
  getOrCreateUUID_alias_mirror initState "businesses" (.num 7) (by decide) (by decide) (by decide)

/-- C6 counterexample: the string `"0"` is truthy in JavaScript, so
`getOrCreateUUID('users', "0")` does not return null — it creates a mapping
entry, refuting the string-zero part of the claim. -/
theorem getOrCreateUUID_zero_string_cex :
    ((getOrCreateUUID initState "users" (.str "0")).1).isSome
    ∧ lookup2 ((getOrCreateUUID initState "users" (.str "0")).2).fwd "users" "0" ≠ none := by
  decide

/-- C6 amended: a source id that is null, undefined, the number `0` or the
empty string is rejected by every mapper operation: `getOrCreateUUID` returns
null with the state (hence the mapping table) unchanged, and `getUUID` returns
null; the string `"0"`, being truthy, is instead treated as a normal key. -/
theorem mapper_falsy_id_no_entry (st : MapperState) (e : String) (oldId : SqlId)
    (h : idFalsy oldId = true) :
    getOrCreateUUID st e oldId = (none, st) ∧ getUUID st e oldId = none :=
  ⟨getOrCreateUUID_falsy h, getUUID_falsy h⟩

/-- C6 witness: the amended no-entry theorem applied at `null` and at the
number `0`. -/
theorem mapper_falsy_id_no_entry_witness :
    (getOrCreateUUID initState "users" SqlId.nullV = (none, initState)
      ∧ getUUID initState "users" SqlId.nullV = none)
    ∧ (getOrCreateUUID initState "users" (.num 0) = (none, initState)
      ∧ getUUID initState "users" (.num 0) = none) :=
  ⟨mapper_falsy_id_no_entry initState "users" SqlId.nullV (by decide),
   mapper_falsy_id_no_entry initState "users" (.num 0) (by decide)⟩

/-- C7: persisting a mapper state and loading it into a fresh mapper instance
preserves every lookup: `getUUID` answers exactly as it did before
persisting (the state well-formedness hypothesis says the forward table's
entity keys are distinct, as they are for every JavaScript object). -/
theorem persistence_roundtrip (st : MapperState) (hndk : NDK st.fwd) (e : String)
    (oldId : SqlId) :
    getUUID (loadMappingsFromFile initState (saveMappingsToFile st)) e oldId =
      getUUID st e oldId := by
  have hload : ∀ e' k, lookup2
      (loadMappingsFromFile initState (saveMappingsToFile st)).fwd e' k =
      lookup2 st.fwd e' k := fun e' k => lookup2_load_from_init hndk e' k
  unfold getUUID listingFallback
  simp only [hload]

/-- C7 witness: the round-trip theorem applied to the state holding
`users:5` and `businesses:3`. -/
theorem persistence_roundtrip_witness :
    getUUID
        (loadMappingsFromFile initState
          (saveMappingsToFile
            ((getOrCreateUUID ((getOrCreateUUID initState "users" (.num 5)).2)
                "businesses" (.num 3)).2)))
        "businesses" (.num 3) =
      getUUID
        ((getOrCreateUUID ((getOrCreateUUID initState "users" (.num 5)).2)
            "businesses" (.num 3)).2)
        "businesses" (.num 3) :=
  persistence_roundtrip _ (by decide) "businesses" (.num 3)

/-- C8 counterexample: an in-memory mapping `users:5` survives in no form
after loading a file whose `users` table lacks it — `Object.assign` replaces
the whole `users` sub-map — refuting "every entry retrievable before the load
is still retrievable afterwards unless overridden by an entry in the file". -/
theorem loadMappings_replaces_cex :
    (getUUID ((getOrCreateUUID initState "users" (.num 5)).2) "users" (.num 5)).isSome
    ∧ lookup2 (saveMappingsToFile ((getOrCreateUUID initState "users" (.num 6)).2))
        "users" "5" = none
    ∧ getUUID
        (loadMappingsFromFile ((getOrCreateUUID initState "users" (.num 5)).2)
          (saveMappingsToFile ((getOrCreateUUID initState "users" (.num 6)).2)))
        "users" (.num 5) = none := by
  decide

/-- C8 amended: `load` merges at entity-type granularity: an entity type
present in the file replaces the whole in-memory sub-map for that type, while
entity types absent from the file keep their in-memory sub-maps; afterwards
the rebuilt reverse index has an entry for the stable id of every forward
binding. -/
theorem loadMappings_merge_semantics (st : MapperState) (file : Maps) (hf : NDK file) :
    (∀ e k, lookup2 (loadMappingsFromFile st file).fwd e k =
        match alookup file e with
        | some m => alookup m k
        | none => lookup2 st.fwd e k)
    ∧ (∀ e k u, lookup2 (loadMappingsFromFile st file).fwd e k = some u →
        (lookup2 (loadMappingsFromFile st file).rev e u).isSome) := by
  constructor
  · intro e k
    show lookup2 (assignAll st.fwd file) e k = _
    unfold lookup2
    rw [alookup_assignAll hf]
    cases hfe : alookup file e with
    | some m => rfl
    | none => rfl
  · intro e k u h
    exact rebuildRev_covers st.rev h

/-- C8 witness: the merge-semantics theorem applied to the counterexample's
state and file, read at the pair `users:6`. -/
theorem loadMappings_merge_semantics_witness :
    lookup2
        (loadMappingsFromFile ((getOrCreateUUID initState "users" (.num 5)).2)
          (saveMappingsToFile ((getOrCreateUUID initState "users" (.num 6)).2))).fwd "users" "6" =
      match alookup (saveMappingsToFile ((getOrCreateUUID initState "users" (.num 6)).2))
          "users" with
      | some m => alookup m "6"
      | none => lookup2 ((getOrCreateUUID initState "users" (.num 5)).2).fwd "users" "6" :=
  (loadMappings_merge_semantics ((getOrCreateUUID initState "users" (.num 5)).2)
    (saveMappingsToFile ((getOrCreateUUID initState "users" (.num 6)).2)) (by decide)).1
    "users" "6"

/-- C9: concurrent `getOrCreateUUID('listings', k)` racers modelled on the
Node event loop: the mapper operation is a synchronous function, so every
schedule is a sequence of atomic calls.  Starting from a state with no entry
for the key, every one of the `n + 1` callers observes the same single stable
id, and the `listings` table afterwards holds exactly one entry for that key.
-/
theorem getOrCreateUUID_concurrent_unique (st : MapperState) (oldId : SqlId) (n : Nat)
    (hv : idFalsy oldId = false)
    (hl : lookup2 st.fwd "listings" (idToStr oldId) = none) :
    (∀ r ∈ (iterateGoC (n + 1) st "listings" oldId).1,
        r = some (uuidv5 ("listings" ++ ":" ++ idToStr oldId) UUID_NAMESPACE))
    ∧ countKey ((alookup ((iterateGoC (n + 1) st "listings" oldId).2).fwd "listings").getD [])
        (idToStr oldId) = 1 := by
  have hnl : "listings" ∉ listingEntities := by decide
  set nu := uuidv5 ("listings" ++ ":" ++ idToStr oldId) UUID_NAMESPACE with hnu
  set st1 : MapperState :=
    ⟨set2 (ensureEntity st.fwd "listings") "listings" (idToStr oldId) nu,
      set2 st.rev "listings" nu (idToStr oldId), st.total + 1⟩ with hst1
  have h2 : getOrCreateUUID st "listings" oldId = (some nu, st1) := by
    rw [getOrCreateUUID_new hv hl]
    unfold mkNewMapping
    rw [if_neg hnl]
  have hne : nu ≠ "" := by
    rw [hnu]
    exact uuidv5_ne_empty _
  have hlook : lookup2 st1.fwd "listings" (idToStr oldId) = some nu := by
    rw [hst1]
    exact lookup2_set2_self _ _ _ _
  have hstable := iterate_stable hv hlook hne
  have hiter : iterateGoC (n + 1) st "listings" oldId =
      (some nu :: List.replicate n (some nu), st1) := by
    unfold iterateGoC
    rw [h2]
    simp only [hstable n]
  rw [hiter]
  constructor
  · intro r hr
    rcases List.mem_cons.mp hr with h | h
    · exact h
    · exact List.eq_of_mem_replicate h
  · show countKey ((alookup st1.fwd "listings").getD []) (idToStr oldId) = 1
    rw [hst1]
    show countKey ((alookup
        (set2 (ensureEntity st.fwd "listings") "listings" (idToStr oldId) nu)
        "listings").getD []) (idToStr oldId) = 1
    unfold set2
    rw [alookup_aset_self]
    exact countKey_aset_new _ (ensure_inner_none hl)

/-- C9 witness: two racing callers on `listings:99` from a fresh mapper leave
exactly one entry for the key in the `listings` table. -/
theorem getOrCreateUUID_concurrent_unique_witness :
    countKey
        ((alookup ((iterateGoC (1 + 1) initState "listings" (.num 99)).2).fwd "listings").getD
          []) (idToStr (.num 99)) = 1 :=
  (getOrCreateUUID_concurrent_unique initState (.num 99) 1 (by decide) (by decide)).2

end SqlMig
